import Mathlib

/-
  Shallow embedding of the tower-defense simulation core (src/game.rs).

  Modelling conventions:
  * Rust `usize` fields become `Nat` (saturating subtraction of `usize` is
    exactly `Nat` subtraction).
  * Rust `f32` fields are modelled as exact rationals `ℚ`; floating-point
    rounding is outside the model.  The `sqrt` used in distance checks is
    eliminated by comparing squared distances (`sqrt d ≤ r ↔ d ≤ r^2` for
    nonnegative `r`), which is exact over the idealised arithmetic.
  * The random choices of `ally_spawn` (`SliceRandom::choose`) are
    derandomised by threading explicit selector numbers: a choice from a
    nonempty list `l` is `l.get? (k % l.length)`, which is `none` exactly
    when the list is empty, matching `choose`.
  * File I/O (`load_config` reading `config.toml`) is modelled by the
    `Game.config` field: `none` means no parsed file, in which case the
    hard-coded `default_config_file` is used, as in the source.
-/

namespace TD

inductive GameState where
  | Init
  | Running
  | Pause
  | End
deriving DecidableEq, Repr, Inhabited

inductive AllyElement where
  | Basic
  | Slow
  | Aoe
  | Dot
  | Critical
deriving DecidableEq, Repr, Inhabited, Fintype

/-- Discriminant order used by Rust's derived `PartialOrd`/`Ord`
(declaration order: Basic < Slow < Aoe < Dot < Critical). -/
def AllyElement.idx : AllyElement → ℕ
  | .Basic => 0
  | .Slow => 1
  | .Aoe => 2
  | .Dot => 3
  | .Critical => 4

/-- `<` on `AllyElement`, as derived in the source. -/
def elemLt (a b : AllyElement) : Bool := a.idx < b.idx

structure Ally where
  element : AllyElement
  second_element : Option AllyElement
  atk : ℕ
  range : ℕ
  aoe_range : ℕ
  level : ℕ
  atk_speed : ℚ
  attack_cooldown : ℚ
  levelup_ratio : ℚ
  special_value : ℚ
deriving DecidableEq, Repr

structure Debuff where
  value : ℕ
  cooldown : ℚ
deriving DecidableEq, Repr

structure Enemy where
  hp : ℕ
  move_speed : ℚ
  position : ℚ
  dot_list : List Debuff
  slow_list : List Debuff
deriving DecidableEq, Repr

structure Board where
  ally_grid : List (List (Option Ally))
  enemies : List Enemy
  enemy_ready2spawn : List (Enemy × ℕ)
deriving DecidableEq, Repr

structure AllyConfig where
  atk : Option ℕ
  range : Option ℕ
  aoe_range : Option ℕ
  level : Option ℕ
  atk_speed : Option ℚ
  attack_cooldown : Option ℚ
  levelup_ratio : Option ℚ
  special_value : Option ℚ
deriving DecidableEq, Repr

structure ConfigFile where
  default : AllyConfig
  basic : Option AllyConfig
  slow : Option AllyConfig
  aoe : Option AllyConfig
  dot : Option AllyConfig
  critical : Option AllyConfig
deriving DecidableEq, Repr

structure Game where
  level : ℕ
  game_state : GameState
  board : Board
  cursor : ℕ × ℕ
  selected : Option (ℕ × ℕ)
  coin : ℕ
  config : Option ConfigFile
deriving DecidableEq, Repr

/-- `Game::new`. -/
def Game.new : Game :=
  { level := 1
    cursor := (0, 0)
    selected := none
    coin := 100
    game_state := .Init
    board :=
      { ally_grid := List.replicate 3 (List.replicate 7 (none : Option Ally))
        enemies := []
        enemy_ready2spawn := [] }
    config := none }

/-- `Game::enemy_grid_position`: project a scalar path position onto the
grid perimeter; top `[0,8)`, right `[8,12)`, bottom `[12,20)`, left
`[20,24)`, and `(0,0)` for anything out of range. -/
def enemy_grid_position (ene : Enemy) : ℚ × ℚ :=
  if ene.position < 8 then (ene.position, 0)
  else if ene.position < 12 then (8, ene.position - 8)
  else if ene.position < 20 then (ene.position - 12, 12)
  else if ene.position < 24 then (0, ene.position - 20)
  else (0, 0)

/-- One debuff examined by `retain_mut` in `enemy_update`: active debuffs
(`cooldown > 0`) are ticked down by 1/60 and kept only while still
positive; inactive ones are discarded. -/
def debuffRetain (d : Debuff) : Option Debuff :=
  if 0 < d.cooldown then
    let d2 : Debuff := { d with cooldown := d.cooldown - 1/60 }
    if 0 < d2.cooldown then some d2 else none
  else none

/-- Damage-over-time section of the per-enemy loop in `enemy_update`:
sum the magnitudes of active dot debuffs, apply them as one saturating
hit-point reduction, and tick/discard the debuffs. -/
def enemyDotStep (e : Enemy) : Enemy :=
  let dot_damage := ((e.dot_list.filter (fun d => 0 < d.cooldown)).map (fun d => d.value)).sum
  { e with
    hp := if 0 < dot_damage then e.hp - dot_damage else e.hp
    dot_list := e.dot_list.filterMap debuffRetain }

/-- Slow factor accumulated by the slow-debuff `retain_mut` loop:
starts at 1 and multiplies `0.5 ^ value` for each active slow debuff. -/
def slowFactor (e : Enemy) : ℚ :=
  e.slow_list.foldl (fun acc d => if 0 < d.cooldown then acc * (1/2) ^ d.value else acc) 1

/-- Slow-debuff ticking plus movement section of the per-enemy loop:
`position += move_speed * slow_factor * (1/60)`, with no wraparound. -/
def enemyMoveStep (e : Enemy) : Enemy :=
  { e with
    slow_list := e.slow_list.filterMap debuffRetain
    position := e.position + e.move_speed * slowFactor e * (1/60) }

/-- The whole per-enemy body of the `enemy_update` movement loop. -/
def enemyTick (e : Enemy) : Enemy :=
  enemyMoveStep (enemyDotStep e)

end TD

namespace TD

/-- Scenario enemy of the spec: path position 23.9, move speed 1, no
debuffs. -/
def enemyAt239 : Enemy :=
  { hp := 100, move_speed := 1, position := 239/10, dot_list := [], slow_list := [] }

/-- Same position but fast enough (speed 60) to cross 24 in one tick. -/
def enemyAt239Fast : Enemy :=
  { enemyAt239 with move_speed := 60 }

/-- C1 counterexample.  The movement code performs no modulo-24 reduction
and the projection sends out-of-range positions to the fallback `(0,0)`:
the scenario enemy at 23.9 (speed 1, no slow) ends the tick at
`23.9 + 1/60 = 1435/60 ≈ 23.9167` on the *left* segment (second projected
coordinate `47/12 ≠ 0`, whereas the top segment has second coordinate 0);
and a speed-60 enemy at 23.9 ends at `249/10 = 24.9`, not at the mod-24
value `9/10`, and projects to the fallback `(0,0)`, not onto the top
segment. -/
theorem enemy_position_wraps_is_false :
    (enemyTick enemyAt239).position = 1435/60 ∧
    enemy_grid_position (enemyTick enemyAt239) = (0, 47/12) ∧
    (enemy_grid_position (enemyTick enemyAt239)).2 ≠ 0 ∧
    (enemyTick enemyAt239Fast).position = 249/10 ∧
    (enemyTick enemyAt239Fast).position ≠ 9/10 ∧
    enemy_grid_position (enemyTick enemyAt239Fast) = (0, 0) := by
  refine ⟨?_, ?_, ?_, ?_, ?_, ?_⟩ <;>
    norm_num [enemyTick, enemyMoveStep, enemyDotStep, slowFactor, enemyAt239,
      enemyAt239Fast, enemy_grid_position]

/-- C1 amended: one tick adds `move_speed * slow_factor * 1/60` to the
path position with *no* modulo; the scenario enemy at 23.9 ends at
`1435/60 ≈ 23.9167`, which the projection maps onto the left segment as
`(0, 47/12)`; positions at or beyond 24 are mapped to the defensive
fallback `(0, 0)` rather than being wrapped onto the top segment. -/
theorem enemy_position_advances_without_wrap :
    (∀ e : Enemy, e.slow_list = [] →
      (enemyTick e).position = e.position + e.move_speed * (1/60)) ∧
    (enemyTick enemyAt239).position = 1435/60 ∧
    enemy_grid_position (enemyTick enemyAt239) = (0, 47/12) ∧
    enemy_grid_position (enemyTick enemyAt239Fast) = (0, 0) := by
  refine ⟨fun e h => ?_, ?_, ?_, ?_⟩
  · simp [enemyTick, enemyMoveStep, enemyDotStep, slowFactor, h]
  all_goals
    norm_num [enemyTick, enemyMoveStep, enemyDotStep, slowFactor, enemyAt239,
      enemyAt239Fast, enemy_grid_position]

/-- Witness for the amended C1 theorem at the scenario enemy. -/
theorem enemy_position_advances_without_wrap_witness :
    (enemyTick enemyAt239).position = enemyAt239.position + enemyAt239.move_speed * (1/60) :=
  enemy_position_advances_without_wrap.1 enemyAt239 rfl

/-! ### Ally merge engine (`Game::ally_merge`) -/

/-- Rust's `(n as f32 * r) as usize`: multiply, truncate toward zero,
and clamp negatives to zero (which `Int.floor ∘ Int.toNat` does for the
nonnegative-or-negative cases alike). -/
def ratScale (n : ℕ) (r : ℚ) : ℕ := ((n : ℚ) * r).floor.toNat

/-- `Game::ally_merge`. -/
def ally_merge (a1 a2 : Ally) : Option Ally :=
  if a1.level ≠ a2.level then none
  else if a1.element = a2.element ∧ a1.second_element = a2.second_element then
    some { element := a1.element
           second_element := none
           atk := ratScale a1.atk a1.levelup_ratio
           range := ratScale a1.range a1.levelup_ratio
           aoe_range := ratScale a1.aoe_range a1.levelup_ratio
           level := a1.level + 1
           atk_speed := a1.atk_speed * a1.levelup_ratio
           attack_cooldown := 0
           levelup_ratio := a1.levelup_ratio
           special_value := a1.special_value * a1.levelup_ratio }
  else if a1.second_element = none ∧ a2.second_element = none then
    let p : AllyElement × Option AllyElement :=
      if elemLt a1.element a2.element then (a1.element, some a2.element)
      else (a2.element, some a1.element)
    some { element := p.1
           second_element := p.2
           atk := max a1.atk a2.atk
           range := max a1.range a2.range
           aoe_range := max a1.aoe_range a2.aoe_range
           level := a1.level
           atk_speed := (a1.atk_speed + a2.atk_speed) / 2
           attack_cooldown := 0
           levelup_ratio := (a1.levelup_ratio + a2.levelup_ratio) / 2
           special_value := (a1.special_value + a2.special_value) / 2 }
  else none

/-- A plain level-1 Basic ally with `levelup_ratio` 1. -/
def mergeA : Ally :=
  { element := .Basic, second_element := none, atk := 10, range := 2, aoe_range := 0,
    level := 1, atk_speed := 1, attack_cooldown := 0, levelup_ratio := 1, special_value := 2 }

/-- Same as `mergeA` but with a different level-up ratio. -/
def mergeB : Ally := { mergeA with levelup_ratio := 2 }

/-- Same as `mergeA` but with a different element (for the hybrid branch). -/
def mergeC : Ally := { mergeA with element := .Slow }

/-- C3 counterexample: in the upgrade branch (equal level, identical
element pairs) all stats are taken from the *first* argument, so two
same-element allies with different `levelup_ratio` merge
non-commutatively: `merge(A,B).levelup_ratio = 1` while
`merge(B,A).levelup_ratio = 2`. -/
theorem ally_merge_comm_is_false :
    ally_merge mergeA mergeB ≠ ally_merge mergeB mergeA := by
  norm_num [ally_merge, mergeA, mergeB, ratScale]

/-- C3 amended: `ally_merge` is commutative whenever the two inputs do
not form an identical (element, secondary-element) pair — in particular
the hybrid branch is always commutative (ascending-element assignment,
symmetric maxima and averages, and the equal-level guard); in the upgrade
branch all output stats are computed from the first argument, so
commutativity there can fail when the inputs' stats differ. -/
theorem ally_merge_comm_of_ne_pair (a b : Ally)
    (h : ¬(a.element = b.element ∧ a.second_element = b.second_element)) :
    ally_merge a b = ally_merge b a := by
  have h' : ¬(b.element = a.element ∧ b.second_element = a.second_element) := by
    intro hc; exact h ⟨hc.1.symm, hc.2.symm⟩
  by_cases hl : a.level = b.level
  · by_cases h2 : a.second_element = none ∧ b.second_element = none
    · have hne : a.element ≠ b.element := by
        intro he; exact h ⟨he, h2.1.trans h2.2.symm⟩
      have tri : ∀ x y : AllyElement, x ≠ y →
          (elemLt x y = true ∧ elemLt y x = false) ∨
          (elemLt x y = false ∧ elemLt y x = true) := by decide
      rcases tri a.element b.element hne with ⟨h3, h4⟩ | ⟨h3, h4⟩ <;>
        simp [ally_merge, hl, hne, Ne.symm hne, h2.1, h2.2, h3, h4, Nat.max_comm,
          add_comm]
    · have h2' : ¬(b.second_element = none ∧ a.second_element = none) := by
        intro hc; exact h2 ⟨hc.2, hc.1⟩
      simp [ally_merge, hl, h, h', h2, h2']
  · have hl' : b.level ≠ a.level := fun hc => hl hc.symm
    simp [ally_merge, hl, hl']

/-- Witness for the amended C3 theorem on a concrete hybrid pair. -/
theorem ally_merge_comm_of_ne_pair_witness :
    ally_merge mergeA mergeC = ally_merge mergeC mergeA :=
  ally_merge_comm_of_ne_pair mergeA mergeC (by decide)

/-! ### Configuration and ally purchase
(`Game::default_config_file`, `Game::ally_spawn`, `Game::buy_ally`) -/

/-- `Game::default_config_file`: the hard-coded fallback configuration. -/
def default_config_file : ConfigFile :=
  let d : AllyConfig :=
    { atk := some 10, range := some 2, aoe_range := some 0, level := some 1,
      atk_speed := some 1, attack_cooldown := some 0, levelup_ratio := some (3/2),
      special_value := some 2 }
  { default := d, basic := some d, slow := some d, aoe := some d, dot := some d,
    critical := some d }

/-- The per-element record selected by the `match element` in `ally_spawn`. -/
def elemRecord (cfg : ConfigFile) : AllyElement → Option AllyConfig
  | .Basic => cfg.basic
  | .Slow => cfg.slow
  | .Aoe => cfg.aoe
  | .Dot => cfg.dot
  | .Critical => cfg.critical

/-- The `Ally` literal built in `ally_spawn`: the element's record (or the
default record if the element's record is absent), with each missing field
replaced by the per-field `unwrap_or` literal. -/
def mk_ally (cfg : ConfigFile) (element : AllyElement) : Ally :=
  let ac := (elemRecord cfg element).getD cfg.default
  { element := element
    second_element := none
    atk := ac.atk.getD 10
    range := ac.range.getD 1
    aoe_range := ac.aoe_range.getD 0
    level := ac.level.getD 1
    atk_speed := ac.atk_speed.getD 1
    attack_cooldown := ac.attack_cooldown.getD 0
    levelup_ratio := ac.levelup_ratio.getD (3/2)
    special_value := ac.special_value.getD (3/2) }

/-- Empty cells of one grid row, in column order (`ally_spawn`'s scan). -/
def rowEmpty (i : ℕ) : List (Option Ally) → ℕ → List (ℕ × ℕ)
  | [], _ => []
  | c :: cs, j => (if c.isNone then [(i, j)] else []) ++ rowEmpty i cs (j + 1)

/-- Empty cells of the whole grid, in row-major order. -/
def emptyCells : List (List (Option Ally)) → ℕ → List (ℕ × ℕ)
  | [], _ => []
  | r :: rs, i => rowEmpty i r 0 ++ emptyCells rs (i + 1)

/-- Write one grid cell (indexing is always in bounds in the source;
`List.set` is a no-op out of bounds). -/
def setCell (grid : List (List (Option Ally))) (i j : ℕ) (v : Option Ally) :
    List (List (Option Ally)) :=
  grid.set i ((grid.getD i []).set j v)

/-- Read one grid cell; `none` for an empty cell or an out-of-bounds index
(the source's `get(i).and_then(|row| row.get(j))` chain likewise yields no
ally in both cases). -/
def getCell (grid : List (List (Option Ally))) (i j : ℕ) : Option Ally :=
  (grid.getD i []).getD j none

/-- The element table of `ally_spawn`. -/
def elementChoices : List AllyElement := [.Basic, .Slow, .Aoe, .Dot, .Critical]

/-- `Game::ally_spawn`, with the two random `choose` calls derandomised
into the selector numbers `kCell` and `kElem`.  `choose` on an empty slice
yields `None` (here: `[].get?` is `none`), otherwise some element. -/
def ally_spawn (g : Game) (kCell kElem : ℕ) : Game :=
  let empty := emptyCells g.board.ally_grid 0
  match empty.get? (kCell % empty.length) with
  | none => g
  | some (i, j) =>
    let element := (elementChoices.get? (kElem % 5)).getD .Basic
    let config := g.config.getD default_config_file
    let ally := mk_ally config element
    { g with board := { g.board with ally_grid := setCell g.board.ally_grid i j (some ally) } }

/-- `Game::buy_ally`: deduct 10 coins and spawn if affordable, otherwise
only log. -/
def buy_ally (g : Game) (kCell kElem : ℕ) : Game :=
  if 10 ≤ g.coin then ally_spawn { g with coin := g.coin - 10 } kCell kElem
  else g

/-- An `AllyConfig` with every field absent. -/
def allNoneConfig : AllyConfig :=
  { atk := none, range := none, aoe_range := none, level := none, atk_speed := none,
    attack_cooldown := none, levelup_ratio := none, special_value := none }

/-- The built-in defaults with a Basic record that is present but has
every field missing. -/
def gapConfig : ConfigFile := { default_config_file with basic := some allNoneConfig }

/-- C5 counterexample: when the chosen element's record is present but a
field is missing, the field is filled by a hard-coded `unwrap_or` literal,
not from the default record: under `gapConfig` the default record carries
`range = 2` and `special_value = 2`, yet the spawned Basic ally gets
`range = 1` and `special_value = 3/2`. -/
theorem ally_config_default_fill_is_false :
    gapConfig.default.range = some 2 ∧
    gapConfig.default.special_value = some 2 ∧
    (mk_ally gapConfig .Basic).range = 1 ∧
    (mk_ally gapConfig .Basic).range ≠ 2 ∧
    (mk_ally gapConfig .Basic).special_value = 3/2 ∧
    (mk_ally gapConfig .Basic).special_value ≠ 2 := by
  refine ⟨rfl, rfl, rfl, ?_, rfl, ?_⟩ <;>
    norm_num [mk_ally, gapConfig, allNoneConfig, default_config_file, elemRecord]

/-- C5 amended: a field absent from the *used* record is filled with the
per-field hard-coded literal (atk 10, range 1, aoe_range 0, level 1,
atk_speed 1, attack_cooldown 0, levelup_ratio 3/2, special_value 3/2),
independently of the default record; only when the element's record is
entirely absent is the default record used (per-field, with the same
literals as last resort); with the fully-populated built-in configuration
every ally gets atk 10, range 2, aoe_range 0, level 1, atk_speed 1,
attack_cooldown 0, levelup_ratio 3/2, special_value 2. -/
theorem ally_spawn_fill_from_literals (cfg : ConfigFile) (e : AllyElement) :
    (elemRecord cfg e = some allNoneConfig →
      mk_ally cfg e =
        { element := e, second_element := none, atk := 10, range := 1, aoe_range := 0,
          level := 1, atk_speed := 1, attack_cooldown := 0, levelup_ratio := 3/2,
          special_value := 3/2 }) ∧
    (elemRecord cfg e = none →
      mk_ally cfg e =
        { element := e, second_element := none,
          atk := cfg.default.atk.getD 10
          range := cfg.default.range.getD 1
          aoe_range := cfg.default.aoe_range.getD 0
          level := cfg.default.level.getD 1
          atk_speed := cfg.default.atk_speed.getD 1
          attack_cooldown := cfg.default.attack_cooldown.getD 0
          levelup_ratio := cfg.default.levelup_ratio.getD (3/2)
          special_value := cfg.default.special_value.getD (3/2) }) ∧
    mk_ally default_config_file e =
      { element := e, second_element := none, atk := 10, range := 2, aoe_range := 0,
        level := 1, atk_speed := 1, attack_cooldown := 0, levelup_ratio := 3/2,
        special_value := 2 } := by
  refine ⟨fun h => ?_, fun h => ?_, ?_⟩
  · simp [mk_ally, h, allNoneConfig]
  · simp [mk_ally, h]
  · cases e <;> simp [mk_ally, default_config_file, elemRecord]

/-- Witness for the amended C5 theorem at `gapConfig`. -/
theorem ally_spawn_fill_from_literals_witness :
    mk_ally gapConfig .Basic =
      { element := .Basic, second_element := none, atk := 10, range := 1, aoe_range := 0,
        level := 1, atk_speed := 1, attack_cooldown := 0, levelup_ratio := 3/2,
        special_value := 3/2 } :=
  (ally_spawn_fill_from_literals gapConfig .Basic).1 rfl

/-- C9 confirmed: with fewer than 10 coins, `buy_ally` changes nothing
(the insufficient-funds branch only logs). -/
theorem buy_ally_insufficient_coin_noop (g : Game) (kCell kElem : ℕ)
    (h : g.coin < 10) : buy_ally g kCell kElem = g := by
  unfold buy_ally
  rw [if_neg (by omega)]

/-- A fresh game left with 5 coins. -/
def poorGame : Game := { Game.new with coin := 5 }

/-- Witness for C9 at a concrete 5-coin game. -/
theorem buy_ally_insufficient_coin_noop_witness :
    buy_ally poorGame 0 0 = poorGame :=
  buy_ally_insufficient_coin_noop poorGame 0 0 (by decide)

/-- If every cell of the grid is occupied there are no empty cells. -/
theorem emptyCells_eq_nil_of_full (grid : List (List (Option Ally)))
    (hfull : ∀ row ∈ grid, ∀ c ∈ row, c.isSome) (i : ℕ) :
    emptyCells grid i = [] := by
  induction grid generalizing i with
  | nil => rfl
  | cons r rs ih =>
    have hrow : ∀ j : ℕ, rowEmpty i r j = [] := by
      have hr : ∀ c ∈ r, c.isSome := hfull r (by simp)
      clear hfull
      induction r with
      | nil => intro j; rfl
      | cons c cs ihr =>
        intro j
        have hc : c.isSome := hr c (by simp)
        have : c.isNone = false := by
          cases c with
          | none => simp at hc
          | some a => rfl
        simp only [rowEmpty, this, if_neg Bool.false_ne_true, List.nil_append]
        exact ihr (fun x hx => hr x (by simp [hx])) (j + 1)
    simp only [emptyCells, hrow, List.nil_append]
    exact ih (fun row hrw => hfull row (by simp [hrw])) (i + 1)

/-- C10 confirmed: with at least 10 coins and a fully occupied 3×7 grid,
`buy_ally` deducts exactly 10 coins, spawns nothing, and leaves the grid
(and all other state) unchanged. -/
theorem buy_ally_full_grid_deducts_coin (g : Game) (kCell kElem : ℕ)
    (hcoin : 10 ≤ g.coin)
    (hrows : g.board.ally_grid.length = 3)
    (hcols : ∀ row ∈ g.board.ally_grid, row.length = 7)
    (hfull : ∀ row ∈ g.board.ally_grid, ∀ c ∈ row, c.isSome) :
    buy_ally g kCell kElem = { g with coin := g.coin - 10 } := by
  unfold buy_ally
  rw [if_pos hcoin]
  unfold ally_spawn
  simp [emptyCells_eq_nil_of_full _ hfull]

/-- One concrete ally used to fill grids in witnesses. -/
def fillerAlly : Ally := mergeA

/-- A game whose 3×7 grid is entirely occupied. -/
def fullGridGame : Game :=
  { Game.new with
      board := { Game.new.board with
        ally_grid := List.replicate 3 (List.replicate 7 (some fillerAlly)) } }

/-- Witness for C10 at a concrete fully-occupied game. -/
theorem buy_ally_full_grid_deducts_coin_witness :
    buy_ally fullGridGame 0 0 = { fullGridGame with coin := fullGridGame.coin - 10 } :=
  buy_ally_full_grid_deducts_coin fullGridGame 0 0 (by decide) (by decide)
    (by decide) (by decide)

/-! ### Cursor/selection state machine
(`Game::cursor_select`, `Game::cursor_drop`) -/

/-- `Game::cursor_drop`. -/
def cursor_drop (g : Game) : Game :=
  match g.selected with
  | none => g
  | some (si, sj) =>
    if (si, sj) = g.cursor then g
    else
      let taken := setCell g.board.ally_grid si sj none
      match getCell g.board.ally_grid si sj with
      | none => { g with selected := none }
      | some ally1 =>
        match getCell taken g.cursor.1 g.cursor.2 with
        | some ally2 =>
          match ally_merge ally1 ally2 with
          | some merged =>
            { g with
              board := { g.board with
                ally_grid := setCell taken g.cursor.1 g.cursor.2 (some merged) }
              selected := none }
          | none => g
        | none =>
          { g with
            board := { g.board with
              ally_grid := setCell taken g.cursor.1 g.cursor.2 (some ally1) }
            selected := none }

/-- `Game::cursor_select`: toggle — drop when something is selected,
otherwise select the cursor cell if occupied. -/
def cursor_select (g : Game) : Game :=
  if g.selected.isSome then cursor_drop g
  else
    match getCell g.board.ally_grid g.cursor.1 g.cursor.2 with
    | some _ => { g with selected := some g.cursor }
    | none => { g with selected := none }

/-- C8 confirmed: with an ally selected and the cursor on the selected
coordinate, the drop action (reached through the selection toggle) leaves
the whole game state unchanged, selection included. -/
theorem cursor_drop_on_self_noop (g : Game) (p : ℕ × ℕ)
    (hsel : g.selected = some p) (hcur : g.cursor = p) :
    cursor_select g = g := by
  obtain ⟨i, j⟩ := p
  simp [cursor_select, cursor_drop, hsel, hcur]

/-- A game with one ally at the origin, selected, cursor on it. -/
def selectedGame : Game :=
  { Game.new with
      board := { Game.new.board with
        ally_grid := setCell Game.new.board.ally_grid 0 0 (some fillerAlly) }
      cursor := (0, 0)
      selected := some (0, 0) }

/-- Witness for C8 at a concrete selected game. -/
theorem cursor_drop_on_self_noop_witness :
    cursor_select selectedGame = selectedGame :=
  cursor_drop_on_self_noop selectedGame (0, 0) rfl rfl

/-! ### Spawn scheduler (first half of `Game::enemy_update`) -/

/-- The timer pass: each pending delay is decremented by 1 if positive. -/
def tickTimers (l : List (Enemy × ℕ)) : List (Enemy × ℕ) :=
  l.map (fun p => (p.1, if 0 < p.2 then p.2 - 1 else p.2))

/-- Indices (counted from `k`) of the pending entries whose timer is 0,
in ascending order — the `spawned` vector of the source. -/
def zeroIdxs : List (Enemy × ℕ) → ℕ → List ℕ
  | [], _ => []
  | p :: ps, k => (if p.2 = 0 then [k] else []) ++ zeroIdxs ps (k + 1)

/-- One step of the `for &idx in spawned.iter().rev()` loop:
`remove(idx)` from the pending list and push the enemy onto the actives. -/
def removeSpawn (st : List (Enemy × ℕ) × List Enemy) (idx : ℕ) :
    List (Enemy × ℕ) × List Enemy :=
  match st.1[idx]? with
  | some p => (st.1.eraseIdx idx, st.2 ++ [p.1])
  | none => st

/-- The spawn section of `enemy_update`: tick the timers, collect the
zero-timer indices, then remove them in reverse (descending) order,
appending each removed enemy to the active collection. -/
def spawnStep (b : Board) : Board :=
  let ticked := tickTimers b.enemy_ready2spawn
  let st := (zeroIdxs ticked 0).reverse.foldl removeSpawn (ticked, b.enemies)
  { ally_grid := b.ally_grid, enemies := st.2, enemy_ready2spawn := st.1 }

theorem zeroIdxs_append (l : List (Enemy × ℕ)) (a : Enemy × ℕ) (k : ℕ) :
    zeroIdxs (l ++ [a]) k = zeroIdxs l k ++ (if a.2 = 0 then [k + l.length] else []) := by
  induction l generalizing k with
  | nil => simp [zeroIdxs]
  | cons p ps ih =>
    have hc : (p :: ps) ++ [a] = p :: (ps ++ [a]) := rfl
    rw [hc]
    show (if p.2 = 0 then [k] else []) ++ zeroIdxs (ps ++ [a]) (k + 1) = _
    rw [ih (k + 1)]
    show _ = ((if p.2 = 0 then [k] else []) ++ zeroIdxs ps (k + 1)) ++ _
    have harith : k + 1 + ps.length = k + (ps.length + 1) := by omega
    rw [List.length_cons, harith, List.append_assoc]

theorem zeroIdxs_bounds (l : List (Enemy × ℕ)) (k : ℕ) :
    ∀ i ∈ zeroIdxs l k, k ≤ i ∧ i < k + l.length := by
  induction l generalizing k with
  | nil => intro i hi; simp [zeroIdxs] at hi
  | cons p ps ih =>
    intro i hi
    simp only [zeroIdxs, List.mem_append] at hi
    rcases hi with hi | hi
    · rcases Decidable.em (p.2 = 0) with h | h <;> simp [h] at hi
      subst hi
      simp only [List.length_cons]
      omega
    · have := ih (k + 1) i hi
      simp only [List.length_cons]
      omega

theorem zeroIdxs_sorted (l : List (Enemy × ℕ)) (k : ℕ) :
    (zeroIdxs l k).Pairwise (· < ·) := by
  induction l generalizing k with
  | nil => exact List.Pairwise.nil
  | cons p ps ih =>
    simp only [zeroIdxs]
    rw [List.pairwise_append]
    refine ⟨?_, ih (k + 1), ?_⟩
    · rcases Decidable.em (p.2 = 0) with h | h <;> simp [h]
    · intro x hx y hy
      rcases Decidable.em (p.2 = 0) with h | h <;> simp [h] at hx
      have := (zeroIdxs_bounds ps (k + 1) y hy).1
      omega

theorem eraseIdx_concat_self {α : Type} (l : List α) (a : α) :
    (l ++ [a]).eraseIdx l.length = l := by
  induction l with
  | nil => rfl
  | cons b bs ih => simpa [List.eraseIdx] using ih

/-- Removing only at strictly-descending in-bounds indices never touches a
trailing appended element. -/
theorem foldl_removeSpawn_append (idxs : List ℕ) (l : List (Enemy × ℕ))
    (a : Enemy × ℕ) (acc : List Enemy)
    (hb : ∀ i ∈ idxs, i < l.length) (hs : idxs.Pairwise (· > ·)) :
    idxs.foldl removeSpawn (l ++ [a], acc) =
      ((idxs.foldl removeSpawn (l, acc)).1 ++ [a], (idxs.foldl removeSpawn (l, acc)).2) := by
  induction idxs generalizing l acc with
  | nil => rfl
  | cons i rest ih =>
    have hi : i < l.length := hb i (by simp)
    have hp : l[i]? = some l[i] := List.getElem?_eq_getElem hi
    have hp' : (l ++ [a])[i]? = some l[i] := by
      rw [List.getElem?_append, if_pos hi, hp]
    have hstep : removeSpawn (l ++ [a], acc) i = (l.eraseIdx i ++ [a], acc ++ [l[i].1]) := by
      simp [removeSpawn, hp', List.eraseIdx_append_of_lt_length hi]
    have hstep' : removeSpawn (l, acc) i = (l.eraseIdx i, acc ++ [l[i].1]) := by
      simp [removeSpawn, hp]
    have hlen : (l.eraseIdx i).length = l.length - 1 := by
      rw [List.length_eraseIdx]
      simp [hi]
    have hrest : ∀ j ∈ rest, j < (l.eraseIdx i).length := by
      intro j hj
      have hji : j < i := (List.pairwise_cons.mp hs).1 j hj
      omega
    simp only [List.foldl_cons, hstep, hstep']
    exact ih (l.eraseIdx i) (acc ++ [l[i].1]) hrest (List.pairwise_cons.mp hs).2

/-- The reverse-order removal loop of `enemy_update` keeps exactly the
nonzero-timer entries (in order) and appends the zero-timer enemies in
reverse index order. -/
theorem foldl_removeSpawn_spec (l : List (Enemy × ℕ)) (acc : List Enemy) :
    (zeroIdxs l 0).reverse.foldl removeSpawn (l, acc) =
      (l.filter (fun p => p.2 != 0),
        acc ++ ((l.filter (fun p => p.2 == 0)).map (fun p => p.1)).reverse) := by
  induction l using List.reverseRecOn generalizing acc with
  | nil => simp [zeroIdxs]
  | append_singleton l a ih =>
    rcases Decidable.em (a.2 = 0) with h | h
    · have hz : (zeroIdxs (l ++ [a]) 0).reverse = l.length :: (zeroIdxs l 0).reverse := by
        rw [zeroIdxs_append]
        simp [h]
      have hstep : removeSpawn (l ++ [a], acc) l.length = (l, acc ++ [a.1]) := by
        simp [removeSpawn, List.getElem?_concat_length, eraseIdx_concat_self]
      rw [hz, List.foldl_cons, hstep, ih (acc ++ [a.1])]
      simp [List.filter_append, h, List.append_assoc]
    · have hz : (zeroIdxs (l ++ [a]) 0).reverse = (zeroIdxs l 0).reverse := by
        rw [zeroIdxs_append]
        simp [h]
      rw [hz, foldl_removeSpawn_append _ l a acc
        (fun i hi => by
          have := (zeroIdxs_bounds l 0 i (List.mem_reverse.mp hi)).2
          omega)
        (List.pairwise_reverse.mpr (zeroIdxs_sorted l 0)),
        ih acc]
      simp [List.filter_append, h]

/-- C4 amended: each tick every pending delay is decremented by 1 if
positive; the entries whose delay has reached 0 are all removed from the
pending queue that same tick (so none spawns twice) and appended to the
active collection — but in *descending* index order (the reverse of the
queue order), not ascending. -/
theorem spawnStep_spec (b : Board) :
    (spawnStep b).enemy_ready2spawn =
        (tickTimers b.enemy_ready2spawn).filter (fun p => p.2 != 0) ∧
    (spawnStep b).enemies =
        b.enemies ++
          (((tickTimers b.enemy_ready2spawn).filter (fun p => p.2 == 0)).map
            (fun p => p.1)).reverse ∧
    (spawnStep b).ally_grid = b.ally_grid := by
  refine ⟨?_, ?_, rfl⟩
  · show ((zeroIdxs (tickTimers b.enemy_ready2spawn) 0).reverse.foldl removeSpawn
      (tickTimers b.enemy_ready2spawn, b.enemies)).1 = _
    rw [foldl_removeSpawn_spec]
  · show ((zeroIdxs (tickTimers b.enemy_ready2spawn) 0).reverse.foldl removeSpawn
      (tickTimers b.enemy_ready2spawn, b.enemies)).2 = _
    rw [foldl_removeSpawn_spec]

/-- Two distinguishable enemies both one tick from spawning. -/
def spawnEnemyA : Enemy := { hp := 1, move_speed := 1, position := 0, dot_list := [], slow_list := [] }

/-- Second distinguishable enemy. -/
def spawnEnemyB : Enemy := { spawnEnemyA with hp := 2 }

/-- A board whose two pending enemies spawn on the same tick. -/
def twoSpawnBoard : Board :=
  { ally_grid := [], enemies := [], enemy_ready2spawn := [(spawnEnemyA, 1), (spawnEnemyB, 1)] }

/-- C4 counterexample: two entries spawning on the same tick are appended
in descending index order — the active list becomes `[B, A]`, not the
ascending `[A, B]` the claim requires. -/
theorem spawn_order_ascending_is_false :
    (spawnStep twoSpawnBoard).enemies = [spawnEnemyB, spawnEnemyA] ∧
    (spawnStep twoSpawnBoard).enemies ≠ [spawnEnemyA, spawnEnemyB] := by
  refine ⟨rfl, ?_⟩
  intro hc
  rw [show (spawnStep twoSpawnBoard).enemies = [spawnEnemyB, spawnEnemyA] from rfl] at hc
  have hhp : spawnEnemyB.hp = spawnEnemyA.hp := by
    rw [List.cons.injEq] at hc
    rw [hc.1]
  simp [spawnEnemyA, spawnEnemyB] at hhp

/-! ### Combat resolution engine
(`Game::ally_update`, `ally_damage`, `ally_AOE_damage`) -/

/-- Ally grid coordinate (row i, column j) mapped to world space. -/
def allyWorldPos (pos : ℕ × ℕ) : ℚ × ℚ := ((pos.2 : ℚ) + 1, (pos.1 : ℚ) + 1)

/-- Squared Euclidean distance; the source compares `sqrt d ≤ r` and
minimises `sqrt d`, which is equivalent to comparing and minimising `d`
against `r^2` since `sqrt` is monotone and both sides are nonnegative. -/
def distSq (p q : ℚ × ℚ) : ℚ := (p.1 - q.1) ^ 2 + (p.2 - q.2) ^ 2

/-- Placeholder enemy for the always-in-bounds `getD` after a successful
nearest-enemy search. -/
def defaultEnemy : Enemy := { hp := 0, move_speed := 0, position := 0, dot_list := [], slow_list := [] }

/-- The `filter_map` of the nearest-enemy search: indices (counted from
`k`) and squared distances of the enemies within `range` of `apos`. -/
def candidateEnemies (apos : ℚ × ℚ) (range : ℕ) : List Enemy → ℕ → List (ℕ × ℚ)
  | [], _ => []
  | e :: es, k =>
    (if distSq apos (enemy_grid_position e) ≤ ((range : ℚ)) ^ 2
     then [(k, distSq apos (enemy_grid_position e))] else []) ++
      candidateEnemies apos range es (k + 1)

/-- Rust's `Iterator::min_by` keeps the first of equally-minimal
elements: the accumulator is replaced only on a strictly smaller key. -/
def minByDist (l : List (ℕ × ℚ)) : Option (ℕ × ℚ) :=
  l.foldl
    (fun best c =>
      match best with
      | none => some c
      | some b => if c.2 < b.2 then some c else some b)
    none

/-- The nearest-enemy-within-range search shared by `ally_damage` and
`ally_AOE_damage`. -/
def nearestEnemyIdx (enemies : List Enemy) (apos : ℚ × ℚ) (range : ℕ) : Option ℕ :=
  (minByDist (candidateEnemies apos range enemies 0)).map (fun p => p.1)

/-- Debuff application of a hit: Slow (primary or secondary) appends
`{value 1, cooldown 1}` to the slow list, Dot appends
`{value 2, cooldown 2}` to the dot list; primary first, then secondary. -/
def applyDebuffs (first : AllyElement) (second : Option AllyElement) (e : Enemy) : Enemy :=
  let e1 :=
    match first with
    | .Slow => { e with slow_list := e.slow_list ++ [{ value := 1, cooldown := 1 }] }
    | .Dot => { e with dot_list := e.dot_list ++ [{ value := 2, cooldown := 2 }] }
    | _ => e
  match second with
  | some .Slow => { e1 with slow_list := e1.slow_list ++ [{ value := 1, cooldown := 1 }] }
  | some .Dot => { e1 with dot_list := e1.dot_list ++ [{ value := 2, cooldown := 2 }] }
  | _ => e1

/-- One hit by ally `a`: debuffs, then saturating hit-point reduction by
`atk` (doubled when either element is Critical). -/
def applyHit (a : Ally) (e : Enemy) : Enemy :=
  let damage :=
    if a.element = .Critical ∨ a.second_element = some .Critical then a.atk * 2 else a.atk
  let e1 := applyDebuffs a.element a.second_element e
  { e1 with hp := e1.hp - damage }

/-- `Game::ally_damage`: hit only the nearest enemy within `range`. -/
def ally_damage (b : Board) (pos : ℕ × ℕ) : Board :=
  match getCell b.ally_grid pos.1 pos.2 with
  | none => b
  | some a =>
    match nearestEnemyIdx b.enemies (allyWorldPos pos) a.range with
    | none => b
    | some idx =>
      match b.enemies[idx]? with
      | some e => { b with enemies := b.enemies.set idx (applyHit a e) }
      | none => b

/-- `Game::ally_AOE_damage`: find the nearest enemy within `range`, then
hit every enemy within `aoe_range` of that enemy's grid-projected
position. -/
def ally_AOE_damage (b : Board) (pos : ℕ × ℕ) : Board :=
  match getCell b.ally_grid pos.1 pos.2 with
  | none => b
  | some a =>
    match nearestEnemyIdx b.enemies (allyWorldPos pos) a.range with
    | none => b
    | some idx =>
      let tpos := enemy_grid_position (b.enemies.getD idx defaultEnemy)
      { b with
        enemies := b.enemies.map (fun e =>
          if distSq tpos (enemy_grid_position e) ≤ ((a.aoe_range : ℚ)) ^ 2
          then applyHit a e else e) }

/-- `Game::ally_ready2attack`: dispatch on whether Aoe is among the
elements. -/
def ally_ready2attack (b : Board) (pos : ℕ × ℕ) : Board :=
  match getCell b.ally_grid pos.1 pos.2 with
  | some a =>
    if a.element = .Aoe ∨ a.second_element = some .Aoe then ally_AOE_damage b pos
    else ally_damage b pos
  | none => b

/-- The cooldown decrement of `ally_update`: tick down by 1/60 when
positive, clamped at 0. -/
def cooldownTick (a : Ally) : Ally :=
  if 0 < a.attack_cooldown then
    let c := a.attack_cooldown - 1/60
    { a with attack_cooldown := if c < 0 then 0 else c }
  else a

/-- Ready cells of one row after the cooldown pass, in column order. -/
def rowReady (i : ℕ) : List (Option Ally) → ℕ → List (ℕ × ℕ)
  | [], _ => []
  | c :: cs, j =>
    (match c with
     | some a => if a.attack_cooldown ≤ 0 then [(i, j)] else []
     | none => []) ++ rowReady i cs (j + 1)

/-- Ready cells of the grid in row-major order. -/
def readyCells : List (List (Option Ally)) → ℕ → List (ℕ × ℕ)
  | [], _ => []
  | r :: rs, i => rowReady i r 0 ++ readyCells rs (i + 1)

/-- One iteration of the attack loop: attack from the cell, then reset
its `attack_cooldown` to the `atk_speed` captured before the loop. -/
def attackStep (b : Board) (t : ℕ × ℕ × ℚ) : Board :=
  let b2 := ally_ready2attack b (t.1, t.2.1)
  match getCell b2.ally_grid t.1 t.2.1 with
  | some a =>
    { b2 with ally_grid := setCell b2.ally_grid t.1 t.2.1 (some { a with attack_cooldown := t.2.2 }) }
  | none => b2

/-- `Game::ally_update`: decrement cooldowns, collect the ready batch and
their attack speeds before any mutation, then run the attacks in order. -/
def ally_update (b : Board) : Board :=
  let grid1 := b.ally_grid.map (fun row => row.map (Option.map cooldownTick))
  let ready := readyCells grid1 0
  let speeds := ready.filterMap (fun ij => (getCell grid1 ij.1 ij.2).map (fun a => (ij.1, ij.2, a.atk_speed)))
  speeds.foldl attackStep { b with ally_grid := grid1 }

/-- C6 confirmed: when an area ally attacks, damage and debuffs are
applied to exactly those enemies whose (squared) grid-projected distance
from the nearest qualifying enemy's position — not from the ally's
position — is within `aoe_range`; and when no enemy is within `range` of
the ally itself, the board is untouched regardless of `aoe_range`. -/
theorem aoe_damage_targets_spec (b : Board) (pos : ℕ × ℕ) (a : Ally)
    (ha : getCell b.ally_grid pos.1 pos.2 = some a) :
    (nearestEnemyIdx b.enemies (allyWorldPos pos) a.range = none →
      ally_AOE_damage b pos = b) ∧
    (∀ idx : ℕ, nearestEnemyIdx b.enemies (allyWorldPos pos) a.range = some idx →
      (ally_AOE_damage b pos).ally_grid = b.ally_grid ∧
      (ally_AOE_damage b pos).enemy_ready2spawn = b.enemy_ready2spawn ∧
      ∀ k : ℕ, (ally_AOE_damage b pos).enemies[k]? =
        (b.enemies[k]?).map (fun e =>
          if distSq (enemy_grid_position (b.enemies.getD idx defaultEnemy))
              (enemy_grid_position e) ≤ ((a.aoe_range : ℚ)) ^ 2
          then applyHit a e else e)) := by
  constructor
  · intro h
    simp [ally_AOE_damage, ha, h]
  · intro idx h
    refine ⟨?_, ?_, fun k => ?_⟩ <;> simp [ally_AOE_damage, ha, h, List.getElem?_map]

/-- An area ally on an otherwise empty board. -/
def aoeAlly : Ally :=
  { element := .Aoe, second_element := none, atk := 10, range := 2, aoe_range := 3,
    level := 1, atk_speed := 1, attack_cooldown := 0, levelup_ratio := 3/2,
    special_value := 2 }

/-- A board holding only `aoeAlly` at cell (0,0) and no enemies. -/
def aoeBoard : Board :=
  { ally_grid := [[some aoeAlly]], enemies := [], enemy_ready2spawn := [] }

/-- Witness for C6: with no enemy in range of the ally, the area attack
changes nothing even though `aoe_range` is positive. -/
theorem aoe_damage_targets_spec_witness :
    ally_AOE_damage aoeBoard (0, 0) = aoeBoard :=
  (aoe_damage_targets_spec aoeBoard (0, 0) aoeAlly rfl).1 rfl

/-! ### Game controller (`Game::update`, `state_checkwin`, `init_game`) -/

/-- `Game::state_checkwin`. -/
def state_checkwin (b : Board) : Bool :=
  b.enemy_ready2spawn.isEmpty && b.enemies.isEmpty

/-- Second half of `Game::enemy_update`: move every active enemy, then
remove the dead (hp exactly 0), crediting 10 coins per removal. -/
def enemy_update (g : Game) : Game :=
  let b1 := spawnStep g.board
  let moved := b1.enemies.map enemyTick
  let dead := (moved.filter (fun e => e.hp == 0)).length
  { g with
    coin := g.coin + dead * 10
    board := { b1 with enemies := moved.filter (fun e => 0 < e.hp) } }

/-- `Game::update`: combat, then enemy lifecycle, then the win check. -/
def update (g : Game) : Game :=
  let g2 := enemy_update { g with board := ally_update g.board }
  if state_checkwin g2.board then { g2 with game_state := .End } else g2

/-- The fixed enemy `Game::enemy_spawn` enqueues (hp 100, speed 1,
position 0). -/
def baseEnemy : Enemy :=
  { hp := 100, move_speed := 1, position := 0, dot_list := [], slow_list := [] }

/-- `Game::enemy_spawn`: enqueue one pending entry per delay; the ten
random `gen_range(0..=100)` draws are passed explicitly. -/
def enemy_spawn (g : Game) (delays : List ℕ) : Game :=
  { g with
    board := { g.board with
      enemy_ready2spawn := g.board.enemy_ready2spawn ++ delays.map (fun t => (baseEnemy, t)) } }

/-- `Game::init_game`: spawn the pending batch and load the configuration
(`config.toml` absent, hence the hard-coded default). -/
def init_game (g : Game) (delays : List ℕ) : Game :=
  { enemy_spawn g delays with config := some default_config_file }

/-- A freshly initialised game with ten pending enemies (delay 50). -/
def gInit : Game := init_game Game.new [50, 50, 50, 50, 50, 50, 50, 50, 50, 50]

/-- C2 counterexample: no code path ever assigns the `Running` state — a
freshly initialised game is still in `Init` after its first tick, not
`Running`. -/
theorem init_to_running_is_false :
    gInit.game_state = GameState.Init ∧
    (update gInit).game_state = GameState.Init ∧
    (update gInit).game_state ≠ GameState.Running := by
  refine ⟨rfl, rfl, ?_⟩
  intro hc
  rw [show (update gInit).game_state = GameState.Init from rfl] at hc
  exact GameState.noConfusion hc

/-- C2 amended: a tick sets the lifecycle state to `End` exactly when the
pending queue and the active collection are simultaneously empty at the
end-of-tick check, and otherwise leaves the state unchanged — whatever it
was.  In particular no tick ever produces `Running` (the enum variant is
never assigned), so the claimed Init → Running transition does not
exist. -/
theorem update_game_state_spec (g : Game) :
    (update g).game_state =
      if state_checkwin (enemy_update { g with board := ally_update g.board }).board
      then GameState.End else g.game_state := by
  unfold update
  cases h : state_checkwin (enemy_update { g with board := ally_update g.board }).board <;>
    simp [h] <;> rfl

/-- C7 confirmed: once `update` returns, the active collection holds only
strictly-positive-hp enemies — every enemy at 0 hp after the movement
phase was removed within the same call — and each removal credited
exactly 10 coins. -/
theorem update_enemies_positive_hp (g : Game) :
    (∀ e ∈ (update g).board.enemies, 0 < e.hp) ∧
    (update g).coin =
      g.coin + 10 * (((spawnStep (ally_update g.board)).enemies.map enemyTick).filter
        (fun e => e.hp == 0)).length := by
  have hboard : (update g).board.enemies =
      ((spawnStep (ally_update g.board)).enemies.map enemyTick).filter (fun e => 0 < e.hp) := by
    unfold update
    dsimp only
    split <;> rfl
  have hcoin : (update g).coin =
      g.coin + (((spawnStep (ally_update g.board)).enemies.map enemyTick).filter
        (fun e => e.hp == 0)).length * 10 := by
    unfold update
    dsimp only
    split <;> rfl
  constructor
  · intro e he
    rw [hboard] at he
    simpa using List.of_mem_filter he
  · rw [hcoin, Nat.mul_comm]

/-- An enemy that stays put (speed 0) for the C7 witness. -/
def stillEnemy : Enemy :=
  { hp := 100, move_speed := 0, position := 0, dot_list := [], slow_list := [] }

/-- A fresh game with a single active enemy. -/
def oneEnemyGame : Game :=
  { Game.new with board := { Game.new.board with enemies := [stillEnemy] } }

/-- Witness for C7: the surviving enemy of a concrete tick has positive
hit points. -/
theorem update_enemies_positive_hp_witness :
    0 < (enemyTick stillEnemy).hp :=
  (update_enemies_positive_hp oneEnemyGame).1 (enemyTick stillEnemy)
    (by
      rw [show (update oneEnemyGame).board.enemies = [enemyTick stillEnemy] from rfl]
      exact List.mem_singleton.mpr rfl)

end TD
